import Mathlib

/-!
Shallow embedding of the core data pipeline of the
`wahlergebnisse_visualization` repository (US election results
validation, processing and scenario analysis), together with proofs of
the behavioural properties stated in its specification.

Modules embedded:
* `src/data_validation.py`  — `DataValidator` / `ExtendedDataValidator`
* `src/data_processing.py`  — `DataProcessor` / `ExtendedDataProcessor`
* `src/election_processor.py` — `ElectionDataProcessor._enrich_data`

Conventions of the embedding:
* pandas float columns are modelled as `ℚ`; numpy `.round(d)` is
  modelled as rounding `x * 10^d` to the nearest integer (Mathlib
  `round`, i.e. half-up; numpy rounds half-to-even, and the two agree
  except at exact half-ulp ties, which no property here exercises);
* a pandas `DataFrame` is modelled column-wise (`Frame`, columns
  optional, `none` = column absent) where validation accesses whole
  columns, and row-wise (`PRow`, `ERow`) for the processing functions,
  with derived columns as `Option` fields (`none` = not yet computed);
* Python exceptions are modelled with `Except PyError`; a function that
  can only return normally has a plain return type;
* `scipy.stats.norm.cdf` is an external library function and is passed
  in as an explicit parameter `normCdf : ℚ → ℚ` of the embedding of
  `calculate_winning_probability`.
-/

namespace Wahl

/-- Python exception values that the embedded code can signal.
`calculationError` stands for `CalculationError` from
`data_processing.py` (whose handlers wrap the message of the
underlying cause); `keyError` and `valueError` stand for the built-in
`KeyError` and `ValueError`. -/
inductive PyError where
  | keyError (key : String)
  | valueError (msg : String)
  | calculationError (msg : String)
deriving DecidableEq

/-- Decidable equality of `Except` results, for evaluating the
embedding on concrete inputs. -/
instance {α β : Type} [DecidableEq α] [DecidableEq β] :
    DecidableEq (Except α β) := fun x y =>
  match x, y with
  | .error a, .error b =>
    if h : a = b then isTrue (by rw [h])
    else isFalse fun hc => h (by cases hc; rfl)
  | .ok a, .ok b =>
    if h : a = b then isTrue (by rw [h])
    else isFalse fun hc => h (by cases hc; rfl)
  | .error _, .ok _ => isFalse fun hc => Except.noConfusion hc
  | .ok _, .error _ => isFalse fun hc => Except.noConfusion hc

/-- numpy `Series.round(d)` on a single value: round to `d` decimal
places (see the conventions above for the half-way tie caveat). -/
def roundTo (d : ℕ) (x : ℚ) : ℚ := (round (x * 10 ^ d) : ℚ) / 10 ^ d

/-- pandas `Series.mean()` (`NaN` on an empty series; here `0/0 = 0`,
a case no claim exercises). -/
def listMean (l : List ℚ) : ℚ := l.sum / (l.length : ℚ)

end Wahl

namespace Wahl.Validation

/-- `ValidationConfig` from `data_validation.py` (the
`required_columns` entry is realised structurally by `Frame`: exactly
the four columns `Staat`, `Harris`, `Trump`, `Wahlleute` are tracked). -/
structure ValidationConfig where
  min_percentage : ℚ := 0
  max_percentage : ℚ := 100
  total_electoral_votes : ℤ := 536
  percentage_sum_min : ℚ := 94
  percentage_sum_max : ℚ := 100
deriving DecidableEq

/-- A pandas `DataFrame` with the four columns the validator knows
about; `none` means the column is absent. -/
structure Frame where
  staat : Option (List String) := none
  harris : Option (List ℚ) := none
  trump : Option (List ℚ) := none
  wahlleute : Option (List ℤ) := none
deriving DecidableEq

/-- `DataValidator.validate_percentages`: collect the values outside
`[min_percentage, max_percentage]`; valid iff none are collected. -/
def validate_percentages (cfg : ValidationConfig) (values : List ℚ) :
    Bool × List ℚ :=
  let invalid := values.filter fun x =>
    !(decide (cfg.min_percentage ≤ x) && decide (x ≤ cfg.max_percentage))
  (invalid.length == 0, invalid)

/-- `DataValidator.validate_electoral_votes`: the column sum must equal
the configured total; the actual sum is always returned. -/
def validate_electoral_votes (cfg : ValidationConfig) (votes : List ℤ) :
    Bool × ℤ :=
  (decide (votes.sum = cfg.total_electoral_votes), votes.sum)

/-- The `validation_results` dict of `DataValidator.validate_dataframe`:
one optional entry per possible failure (a key is in the dict iff the
field is `some`).  The `error` catch-all entry of the Python code has no
counterpart because the embedded try-block is total. -/
structure BaseReport where
  missing_columns : Option (List String) := none
  invalid_percentages : Option (List ℚ × List ℚ) := none
  invalid_votes : Option ℤ := none
deriving DecidableEq

/-- `len(validation_results) == 0`. -/
def BaseReport.isEmpty (r : BaseReport) : Bool :=
  r.missing_columns.isNone && r.invalid_percentages.isNone && r.invalid_votes.isNone

/-- `DataValidator.validate_dataframe`: a missing required column
returns immediately; otherwise the percentage and electoral-vote checks
both run and their failures are collected.  (Python lists the missing
set in arbitrary set order; here in the fixed order Staat, Harris,
Trump, Wahlleute.) -/
def validate_dataframe (cfg : ValidationConfig) (df : Frame) :
    Bool × BaseReport :=
  match df.staat, df.harris, df.trump, df.wahlleute with
  | some _, some hs, some ts, some ws =>
    let hp := validate_percentages cfg hs
    let tp := validate_percentages cfg ts
    let pct : Option (List ℚ × List ℚ) :=
      if hp.1 && tp.1 then none else some (hp.2, tp.2)
    let ev := validate_electoral_votes cfg ws
    let iv : Option ℤ := if ev.1 then none else some ev.2
    let r : BaseReport := { invalid_percentages := pct, invalid_votes := iv }
    (r.isEmpty, r)
  | _, _, _, _ =>
    let missing :=
      (if df.staat.isNone then ["Staat"] else []) ++
      (if df.harris.isNone then ["Harris"] else []) ++
      (if df.trump.isNone then ["Trump"] else []) ++
      (if df.wahlleute.isNone then ["Wahlleute"] else [])
    (false, { missing_columns := some missing })

/-- `ExtendedDataValidator.VALID_STATES` (50 states + D.C.). -/
def VALID_STATES : List String :=
  ["Alabama", "Alaska", "Arizona", "Arkansas", "California", "Colorado",
   "Connecticut", "Delaware", "Florida", "Georgia", "Hawaii", "Idaho",
   "Illinois", "Indiana", "Iowa", "Kansas", "Kentucky", "Louisiana",
   "Maine", "Maryland", "Massachusetts", "Michigan", "Minnesota",
   "Mississippi", "Missouri", "Montana", "Nebraska", "Nevada",
   "New Hampshire", "New Jersey", "New Mexico", "New York",
   "North Carolina", "North Dakota", "Ohio", "Oklahoma", "Oregon",
   "Pennsylvania", "Rhode Island", "South Carolina", "South Dakota",
   "Tennessee", "Texas", "Utah", "Vermont", "Virginia", "Washington",
   "West Virginia", "Wisconsin", "Wyoming", "District of Columbia"]

/-- `ExtendedDataValidator.validate_state_names`: the set difference
`set(states) - VALID_STATES` (Python iterates the set in arbitrary
order; here first occurrences in list order). -/
def validate_state_names (states : List String) : Bool × List String :=
  let invalid := (states.filter fun s => !(VALID_STATES.contains s)).dedup
  (invalid.length == 0, invalid)

/-- `ExtendedDataValidator.validate_sum_to_hundred` on one row. -/
def validate_sum_to_hundred (cfg : ValidationConfig) (harris trump : ℚ) :
    Bool × ℚ :=
  let total := harris + trump
  (decide (cfg.percentage_sum_min ≤ total) && decide (total ≤ cfg.percentage_sum_max),
   total)

/-- One entry of the `invalid_sums` list. -/
structure SumErr where
  state : String
  total : ℚ
  harris : ℚ
  trump : ℚ
deriving DecidableEq

/-- The `errors` dict of
`ExtendedDataValidator.validate_dataframe_extended`. -/
structure ExtReport where
  base_validation : Option BaseReport := none
  invalid_states : Option (List String) := none
  invalid_sums : Option (List SumErr) := none
deriving DecidableEq

/-- `len(errors) == 0`. -/
def ExtReport.isEmpty (r : ExtReport) : Bool :=
  r.base_validation.isNone && r.invalid_states.isNone && r.invalid_sums.isNone

/-- `ExtendedDataValidator.validate_dataframe_extended`.  The base
validation runs first (it never raises); `df["Staat"].tolist()` raises
`KeyError` when the `Staat` column is absent; the per-row sum loop
(`df.iterrows()` with `row["Harris"]`, `row["Trump"]`) raises `KeyError`
on its first iteration when rows exist but the `Harris` or `Trump`
column is absent, and does not run at all on an empty column. -/
def validate_dataframe_extended (cfg : ValidationConfig) (df : Frame) :
    Except PyError (Bool × ExtReport) :=
  let base := validate_dataframe cfg df
  let baseEntry : Option BaseReport := if base.1 then none else some base.2
  match df.staat with
  | none => .error (.keyError "Staat")
  | some staaten =>
    let sv := validate_state_names staaten
    let statesEntry : Option (List String) := if sv.1 then none else some sv.2
    match staaten with
    | [] =>
      let r : ExtReport := { base_validation := baseEntry,
                             invalid_states := statesEntry,
                             invalid_sums := none }
      .ok (r.isEmpty, r)
    | _ :: _ =>
      match df.harris, df.trump with
      | some hs, some ts =>
        let rows := staaten.zip (hs.zip ts)
        let sums : List SumErr := rows.filterMap fun p =>
          let c := validate_sum_to_hundred cfg p.2.1 p.2.2
          if c.1 then none else some ⟨p.1, c.2, p.2.1, p.2.2⟩
        let sumsEntry : Option (List SumErr) :=
          if sums.isEmpty then none else some sums
        let r : ExtReport := { base_validation := baseEntry,
                               invalid_states := statesEntry,
                               invalid_sums := sumsEntry }
        .ok (r.isEmpty, r)
      | none, _ => .error (.keyError "Harris")
      | some _, none => .error (.keyError "Trump")

end Wahl.Validation

namespace Wahl.Processing

open Wahl

/-- `ProcessingConfig` from `data_processing.py`. -/
structure ProcessingConfig where
  margin_of_error : ℚ := 2
  close_race_threshold : ℚ := 1
  window_size : ℕ := 7
  rounding_decimals : ℕ := 2
  min_data_points : ℕ := 3
  confidence_level : ℚ := 95 / 100
deriving DecidableEq

/-- One row of the table of the processing pipeline (base columns `Staat`,
`Harris`, `Trump`, `Wahlleute` plus the derived columns, `none` until
computed).  The required-columns check of `_validate_data` is realised
structurally; its emptiness check is explicit in each function. -/
structure PRow where
  staat : String
  harris : ℚ
  trump : ℚ
  wahlleute : ℤ
  fuehrung : Option ℚ := none
  harris_anteil : Option ℚ := none
  trump_anteil : Option ℚ := none
  z_score : Option ℚ := none
  harris_gewinnchance : Option ℚ := none
  trump_gewinnchance : Option ℚ := none
deriving DecidableEq

/-- `DataProcessor.calculate_leads`: validates the input (the `DataError`
for an empty table is caught by the surrounding handler and re-raised as
`CalculationError`), then sets `Führung = round(Harris - Trump, d)`. -/
def calculate_leads (cfg : ProcessingConfig) (df : List PRow) :
    Except PyError (List PRow) :=
  if df.isEmpty then
    .error (.calculationError "Fehler bei Fuehrungsberechnung: DataFrame ist leer oder None")
  else
    .ok (df.map fun r =>
      { r with fuehrung := some (roundTo cfg.rounding_decimals (r.harris - r.trump)) })

/-- `DataProcessor.calculate_percentages`: weight the percentage of
each candidate by the electoral votes of the row against the total. -/
def calculate_percentages (cfg : ProcessingConfig) (df : List PRow) :
    Except PyError (List PRow) :=
  if df.isEmpty then
    .error (.calculationError "Fehler bei Prozentberechnung: DataFrame ist leer oder None")
  else
    let total : ℤ := (df.map PRow.wahlleute).sum
    if total = 0 then
      .error (.calculationError "Fehler bei Prozentberechnung: Gesamtzahl der Wahlleute ist 0")
    else
      .ok (df.map fun r =>
        { r with
          harris_anteil := some (roundTo cfg.rounding_decimals
            ((r.wahlleute : ℚ) * (r.harris / 100) / (total : ℚ) * 100)),
          trump_anteil := some (roundTo cfg.rounding_decimals
            ((r.wahlleute : ℚ) * (r.trump / 100) / (total : ℚ) * 100)) })

/-- pandas `Series.median()` (`NaN` on an empty series; here `0`, a case
no claim exercises). -/
def listMedian (l : List ℚ) : ℚ :=
  let s := l.mergeSort fun a b => decide (a ≤ b)
  let n := l.length
  if n = 0 then 0
  else if n % 2 = 1 then s.getD (n / 2) 0
  else (s.getD (n / 2 - 1) 0 + s.getD (n / 2) 0) / 2

/-- The numeric fields of the summary dict of
`ExtendedDataProcessor.calculate_winning_probability` (the `Zeitpunkt`
wall-clock timestamp has no counterpart in a pure embedding). -/
structure ProbSummary where
  harris_gesamt_chance : ℚ
  trump_gesamt_chance : ℚ
  durchschnittliche_fuehrung : ℚ
  median_fuehrung : ℚ
deriving DecidableEq

/-- `ExtendedDataProcessor.calculate_winning_probability`.  The
`margin_of_error or self.config.margin_of_error` idiom falls back to the
config value when the argument is `None` or `0.0` (falsy).  `normCdf`
stands for `scipy.stats.norm.cdf`; `1.96` is `196/100`.  An error from
`calculate_leads` is re-wrapped by the handler.  Reading the `Führung`
column of the intermediate table uses `getD 0`; the column was just
computed, so the default is never taken. -/
def calculate_winning_probability (normCdf : ℚ → ℚ) (cfg : ProcessingConfig)
    (margin_of_error : Option ℚ) (df : List PRow) :
    Except PyError (List PRow × ProbSummary) :=
  let margin : ℚ := match margin_of_error with
    | some m => if m = 0 then cfg.margin_of_error else m
    | none => cfg.margin_of_error
  match calculate_leads cfg df with
  | .error _ =>
    .error (.calculationError "Fehler bei Wahrscheinlichkeitsberechnung: CalculationError")
  | .ok base =>
    let rows := base.map fun r =>
      let z := (r.fuehrung.getD 0) / (margin / (196 / 100))
      let hc := roundTo cfg.rounding_decimals (normCdf z * 100)
      let tc := roundTo cfg.rounding_decimals (100 - hc)
      { r with z_score := some z,
               harris_gewinnchance := some hc,
               trump_gewinnchance := some tc }
    let wsum : ℚ := (rows.map fun r => ((r.wahlleute : ℚ))).sum
    .ok (rows,
      { harris_gesamt_chance :=
          ((rows.map fun r => (r.harris_gewinnchance.getD 0) * (r.wahlleute : ℚ)).sum) / wsum,
        trump_gesamt_chance :=
          ((rows.map fun r => (r.trump_gewinnchance.getD 0) * (r.wahlleute : ℚ)).sum) / wsum,
        durchschnittliche_fuehrung := listMean (rows.map fun r => r.fuehrung.getD 0),
        median_fuehrung := listMedian (rows.map fun r => r.fuehrung.getD 0) })

/-- The `Wahlleute` entry of the base case of the report of
`analyze_electoral_scenarios`. -/
structure BaseVotes where
  harris : ℤ
  trump : ℤ
  unentschieden : ℤ
deriving DecidableEq

/-- The base case of the report (`Basisszenario`). -/
structure BasisScen where
  wahlleute : BaseVotes
  sieg_harris : ℚ
  sieg_trump : ℚ
deriving DecidableEq

/-- The close-states case of the report (`Knappe_Staaten`). -/
structure KnappeScen where
  anzahl : ℕ
  wahlleute : ℤ
  staaten : List String
  durchschnittliche_differenz : ℚ
deriving DecidableEq

/-- The tipping-point case of the report (`Tipping_Point`): the selected
`Staat`, `Führung` and `Wahlleute` values of the selected row. -/
structure TippingScen where
  staat : String
  fuehrung : Option ℚ
  wahlleute : ℤ
deriving DecidableEq

/-- The full report of `analyze_electoral_scenarios` (dict keys
`Basisszenario`, `Knappe_Staaten`, `Tipping_Point`). -/
structure ScenReport where
  basis : BasisScen
  knappe : KnappeScen
  tipping : TippingScen
deriving DecidableEq

/-- The row selected by `(cumsum >= 270).idxmax()` on the sorted table:
the first row at which the running `Wahlleute` sum reaches the
threshold, if any. -/
def firstReach (threshold : ℤ) : ℤ → List PRow → Option PRow
  | _, [] => none
  | acc, r :: rs =>
    if threshold ≤ acc + r.wahlleute then some r
    else firstReach threshold (acc + r.wahlleute) rs

/-- `df.sort_values(by="Führung")`: ascending by the `Führung` column.
The behaviour of the library sort on equal keys is modelled as stable
(mergesort); the pandas default `quicksort` promises only some
ascending order. -/
def sortByFuehrung (df : List PRow) : List PRow :=
  df.mergeSort fun a b => decide (a.fuehrung.getD 0 ≤ b.fuehrung.getD 0)

/-- `ExtendedDataProcessor.analyze_electoral_scenarios`.  The base and
close-state cases partition/filter on the raw `Harris`/`Trump` columns;
the tipping point sorts by `Führung`, takes the cumulative-sum
crossing of 270 via `idxmax` (which yields the first row when the
threshold is never reached, and raises `ValueError` on an empty table),
and reads the selected row.  Sorting a table without the `Führung`
column raises `KeyError`.  Every exception is caught by the handler and
re-raised as `CalculationError`. -/
def analyze_electoral_scenarios (cfg : ProcessingConfig) (df : List PRow) :
    Except PyError ScenReport :=
  let bv : BaseVotes :=
    { harris := ((df.filter fun r => decide (r.trump < r.harris)).map PRow.wahlleute).sum,
      trump := ((df.filter fun r => decide (r.harris < r.trump)).map PRow.wahlleute).sum,
      unentschieden := ((df.filter fun r => decide (r.harris = r.trump)).map PRow.wahlleute).sum }
  let basis : BasisScen :=
    { wahlleute := bv,
      sieg_harris := (bv.harris : ℚ) / 538 * 100,
      sieg_trump := (bv.trump : ℚ) / 538 * 100 }
  let close := df.filter fun r => decide (|r.harris - r.trump| < cfg.close_race_threshold)
  let knappe : KnappeScen :=
    { anzahl := close.length,
      wahlleute := (close.map PRow.wahlleute).sum,
      staaten := close.map PRow.staat,
      durchschnittliche_differenz := listMean (close.map fun r => |r.harris - r.trump|) }
  if df.all fun r => r.fuehrung.isSome then
    match sortByFuehrung df with
    | [] =>
      .error (.calculationError "Fehler bei Szenarioanalyse: attempt to get argmax of an empty sequence")
    | r0 :: rest =>
      let tp := (firstReach 270 0 (r0 :: rest)).getD r0
      .ok { basis := basis, knappe := knappe,
            tipping := { staat := tp.staat, fuehrung := tp.fuehrung, wahlleute := tp.wahlleute } }
  else
    .error (.calculationError "Fehler bei Szenarioanalyse: KeyError Fuehrung")

end Wahl.Processing

namespace Wahl.ElectionProc

open Wahl

/-- One row of the `ElectionDataProcessor` pipeline: `State`, integer
vote counts parsed from the input text, and the derived columns of
`_enrich_data`. -/
structure ERow where
  state : String
  harris : ℤ
  trump : ℤ
  total : Option ℤ := none
  harris_percentage : Option ℚ := none
  trump_percentage : Option ℚ := none
  leading : Option String := none
  margin : Option ℤ := none
deriving DecidableEq

/-- `ElectionDataProcessor._enrich_data`: add `Total`, percentages
rounded to one decimal (`Total = 0` gives `inf`/`NaN` in pandas; here
division by zero gives `0`, a case no claim exercises), the leading
candidate via `np.where(Harris > Trump, "Harris", "Trump")`, the
absolute `Margin`, then sort by `Total` descending. -/
def enrich_data (df : List ERow) : List ERow :=
  let d1 := df.map fun r =>
    let tot := r.harris + r.trump
    { r with
      total := some tot,
      harris_percentage := some (roundTo 1 ((r.harris : ℚ) / (tot : ℚ) * 100)),
      trump_percentage := some (roundTo 1 ((r.trump : ℚ) / (tot : ℚ) * 100)),
      leading := some (if r.trump < r.harris then "Harris" else "Trump"),
      margin := some |r.harris - r.trump| }
  d1.mergeSort fun a b => decide (b.total.getD 0 ≤ a.total.getD 0)

end Wahl.ElectionProc

namespace Wahl

/-- `List.mergeSort` of a one-element list, for evaluating the
embedding on concrete singleton tables. -/
theorem mergeSort_one {α : Type} (le : α → α → Bool) (a : α) :
    [a].mergeSort le = [a] :=
  List.perm_singleton.mp (List.mergeSort_perm [a] le)

/-- `round` is monotone on `ℚ`. -/
theorem round_le_round {a b : ℚ} (h : a ≤ b) : round a ≤ round b := by
  rw [round_eq, round_eq]
  exact Int.floor_le_floor (by linarith)

/-- `roundTo` fixes rationals that are integer multiples of `10⁻ᵈ`. -/
theorem roundTo_int_div (d : ℕ) (n : ℤ) :
    roundTo d ((n : ℚ) / 10 ^ d) = (n : ℚ) / 10 ^ d := by
  have hp : ((10 : ℚ) ^ d) ≠ 0 := by positivity
  unfold roundTo
  rw [div_mul_cancel₀ _ hp, round_intCast]

/-- `roundTo` of an integer is itself. -/
theorem roundTo_intCast (d : ℕ) (n : ℤ) : roundTo d (n : ℚ) = (n : ℚ) := by
  have h := roundTo_int_div d (n * 10 ^ d)
  have hp : ((10 : ℚ) ^ d) ≠ 0 := by positivity
  rw [show ((n * 10 ^ d : ℤ) : ℚ) = (n : ℚ) * 10 ^ d by push_cast; ring,
    mul_div_cancel_right₀ _ hp] at h
  exact h

/-- The result of `roundTo d` is an integer multiple of `10⁻ᵈ`. -/
theorem roundTo_exists_int (d : ℕ) (x : ℚ) :
    ∃ n : ℤ, roundTo d x = (n : ℚ) / 10 ^ d :=
  ⟨round (x * 10 ^ d), rfl⟩

/-- `roundTo` keeps values inside `[0, 100]`. -/
theorem roundTo_mem_Icc (d : ℕ) {x : ℚ} (h0 : 0 ≤ x) (h1 : x ≤ 100) :
    0 ≤ roundTo d x ∧ roundTo d x ≤ 100 := by
  have hp : (0 : ℚ) < 10 ^ d := by positivity
  have hlow : (0 : ℤ) ≤ round (x * 10 ^ d) := by
    have := round_le_round (show (0 : ℚ) ≤ x * 10 ^ d by positivity)
    simpa using this
  have hhigh : round (x * 10 ^ d) ≤ 100 * 10 ^ d := by
    have h2 : x * 10 ^ d ≤ ((100 * 10 ^ d : ℤ) : ℚ) := by
      push_cast
      nlinarith
    have h3 := round_le_round h2
    rwa [round_intCast] at h3
  unfold roundTo
  constructor
  · exact div_nonneg (by exact_mod_cast hlow) (le_of_lt hp)
  · rw [div_le_iff₀ hp]
    calc (round (x * 10 ^ d) : ℚ) ≤ ((100 * 10 ^ d : ℤ) : ℚ) := by exact_mod_cast hhigh
    _ = 100 * 10 ^ d := by push_cast; ring

end Wahl

namespace Wahl.Validation

/-- The percentage check reports failure exactly when some value lies
outside the configured range. -/
theorem validate_percentages_fst_false_iff (cfg : ValidationConfig) (vs : List ℚ) :
    (validate_percentages cfg vs).1 = false ↔
      ∃ x ∈ vs, ¬(cfg.min_percentage ≤ x ∧ x ≤ cfg.max_percentage) := by
  simp [validate_percentages, List.length_eq_zero, List.filter_eq_nil_iff]

/-- The state-name check reports failure exactly when some state is not
in the fixed set. -/
theorem validate_state_names_fst_false_iff (ss : List String) :
    (validate_state_names ss).1 = false ↔ ∃ s ∈ ss, ¬ s ∈ VALID_STATES := by
  simp [validate_state_names, List.length_eq_zero, List.dedup_eq_nil,
    List.filter_eq_nil_iff]

/-- The collected per-row sum errors are nonempty exactly when some row
violates the percentage-sum bounds. -/
theorem sums_filterMap_isEmpty_false_iff (cfg : ValidationConfig)
    (rows : List (String × ℚ × ℚ)) :
    ((rows.filterMap fun p =>
        let c := validate_sum_to_hundred cfg p.2.1 p.2.2
        if c.1 then none else some (⟨p.1, c.2, p.2.1, p.2.2⟩ : SumErr)).isEmpty = false) ↔
      ∃ p ∈ rows, ¬(cfg.percentage_sum_min ≤ p.2.1 + p.2.2 ∧ p.2.1 + p.2.2 ≤ cfg.percentage_sum_max) := by
  rw [Bool.eq_false_iff]
  simp [List.isEmpty_iff, List.filterMap_eq_nil_iff, validate_sum_to_hundred]

/-- With all required columns present, the base report carries a
percentage entry exactly when some percentage is out of range. -/
theorem validate_dataframe_invalid_percentages_iff
    (cfg : ValidationConfig) (ss : List String) (hs ts : List ℚ) (ws : List ℤ) :
    (validate_dataframe cfg
        { staat := some ss, harris := some hs, trump := some ts, wahlleute := some ws }).2.invalid_percentages ≠ none ↔
      (∃ x ∈ hs, ¬(cfg.min_percentage ≤ x ∧ x ≤ cfg.max_percentage)) ∨
      (∃ x ∈ ts, ¬(cfg.min_percentage ≤ x ∧ x ≤ cfg.max_percentage)) := by
  have hper := validate_percentages_fst_false_iff cfg hs
  have tper := validate_percentages_fst_false_iff cfg ts
  simp only [validate_dataframe]
  cases hhp : (validate_percentages cfg hs).1 <;> cases htp : (validate_percentages cfg ts).1
  · simp
    exact Or.inl (by simpa using hper.mp hhp)
  · simp
    exact Or.inl (by simpa using hper.mp hhp)
  · simp
    exact Or.inr (by simpa using tper.mp htp)
  · have hA : ¬ ∃ x ∈ hs, ¬(cfg.min_percentage ≤ x ∧ x ≤ cfg.max_percentage) :=
      fun a => absurd (hper.mpr a) (by simp [hhp])
    have hB : ¬ ∃ x ∈ ts, ¬(cfg.min_percentage ≤ x ∧ x ≤ cfg.max_percentage) :=
      fun a => absurd (tper.mpr a) (by simp [htp])
    simp
    exact ⟨by simpa using hA, by simpa using hB⟩

/-- With all required columns present, the base report carries a vote
entry exactly when the column sum misses the configured target. -/
theorem validate_dataframe_invalid_votes_iff
    (cfg : ValidationConfig) (ss : List String) (hs ts : List ℚ) (ws : List ℤ) :
    (validate_dataframe cfg
        { staat := some ss, harris := some hs, trump := some ts, wahlleute := some ws }).2.invalid_votes ≠ none ↔
      ws.sum ≠ cfg.total_electoral_votes := by
  simp only [validate_dataframe, validate_electoral_votes]
  by_cases h : ws.sum = cfg.total_electoral_votes <;> simp [h]

end Wahl.Validation

namespace Wahl.Validation

/-- C6: the electoral-vote check succeeds exactly when the column sum
equals the configured target, always reports the actual total, and the
report of the full validation carries that total exactly in the
mismatch case. -/
theorem validate_electoral_votes_iff (cfg : ValidationConfig) (votes : List ℤ)
    (ss : List String) (hs ts : List ℚ) :
    ((validate_electoral_votes cfg votes).1 = true ↔ votes.sum = cfg.total_electoral_votes) ∧
    (validate_electoral_votes cfg votes).2 = votes.sum ∧
    (validate_dataframe cfg
        { staat := some ss, harris := some hs, trump := some ts, wahlleute := some votes }).2.invalid_votes
      = if votes.sum = cfg.total_electoral_votes then none else some votes.sum := by
  refine ⟨by simp [validate_electoral_votes], rfl, ?_⟩
  simp [validate_dataframe, validate_electoral_votes]

/-- C3 counterexample: a table without the Staat column is an expected
validation failure (the base validator reports it as missing and
returns normally), yet `validate_dataframe_extended` raises a
`KeyError` for the same table — not the `DataError` the specification
names, which the validation module never signals. -/
theorem validate_extended_missing_staat_cex :
    validate_dataframe {}
        { staat := none, harris := some [50], trump := some [48], wahlleute := some [269] }
      = (false, { missing_columns := some ["Staat"] }) ∧
    validate_dataframe_extended {}
        { staat := none, harris := some [50], trump := some [48], wahlleute := some [269] }
      = .error (.keyError "Staat") := by
  constructor <;> decide

/-- C3 (amended): `validate_dataframe` always returns a boolean plus
report and never raises; `validate_dataframe_extended` returns a
boolean plus report for every table that contains the Staat, Harris and
Trump columns, but raises a built-in `KeyError` — never a `DataError` —
whenever the Staat column is absent, even though that is an expected
validation failure. -/
theorem validate_extended_never_raises_with_columns
    (cfg : ValidationConfig) (ss : List String) (hs ts : List ℚ) (ow : Option (List ℤ)) :
    (∃ b r, validate_dataframe_extended cfg
        { staat := some ss, harris := some hs, trump := some ts, wahlleute := ow } = .ok (b, r)) ∧
    (∀ oh ot ow2, validate_dataframe_extended cfg
        { staat := none, harris := oh, trump := ot, wahlleute := ow2 } = .error (.keyError "Staat")) := by
  constructor
  · cases ss with
    | nil => exact ⟨_, _, rfl⟩
    | cons s ss2 => exact ⟨_, _, rfl⟩
  · intro oh ot ow2
    rfl

/-- C4 counterexample: a table that is both missing the Staat column
and has an electoral-vote mismatch reports only the missing column: the
vote check is short-circuited and absent from the report. -/
theorem validate_short_circuit_cex :
    ((validate_dataframe {}
        { staat := none, harris := some [50], trump := some [48], wahlleute := some [7] }).2.missing_columns
      = some ["Staat"]) ∧
    ¬ (([7] : List ℤ).sum = ({} : ValidationConfig).total_electoral_votes) ∧
    ((validate_dataframe {}
        { staat := none, harris := some [50], trump := some [48], wahlleute := some [7] }).2.invalid_votes
      = none) := by
  refine ⟨by decide, by decide, by decide⟩

/-- C4 (amended): once every required column is present, the checks are
independent and all failures are collected: extended validation returns
normally, and each of the percentage, electoral-vote, state-name and
percentage-sum entries is present in the report exactly when the
corresponding check is violated, regardless of the other checks.  (A
missing required column instead short-circuits the base validation.) -/
theorem validate_checks_collected_with_columns
    (cfg : ValidationConfig) (ss : List String) (hs ts : List ℚ) (ws : List ℤ) :
    ∃ b r, validate_dataframe_extended cfg
        { staat := some ss, harris := some hs, trump := some ts, wahlleute := some ws } = .ok (b, r) ∧
      ((validate_dataframe cfg
          { staat := some ss, harris := some hs, trump := some ts, wahlleute := some ws }).2.invalid_percentages ≠ none ↔
        (∃ x ∈ hs, ¬(cfg.min_percentage ≤ x ∧ x ≤ cfg.max_percentage)) ∨
        (∃ x ∈ ts, ¬(cfg.min_percentage ≤ x ∧ x ≤ cfg.max_percentage))) ∧
      ((validate_dataframe cfg
          { staat := some ss, harris := some hs, trump := some ts, wahlleute := some ws }).2.invalid_votes ≠ none ↔
        ws.sum ≠ cfg.total_electoral_votes) ∧
      (r.base_validation ≠ none ↔ (validate_dataframe cfg
          { staat := some ss, harris := some hs, trump := some ts, wahlleute := some ws }).1 = false) ∧
      (r.invalid_states ≠ none ↔ ∃ s ∈ ss, ¬ s ∈ VALID_STATES) ∧
      (r.invalid_sums ≠ none ↔ ∃ p ∈ ss.zip (hs.zip ts),
        ¬(cfg.percentage_sum_min ≤ p.2.1 + p.2.2 ∧ p.2.1 + p.2.2 ≤ cfg.percentage_sum_max)) := by
  have hpct := validate_dataframe_invalid_percentages_iff cfg ss hs ts ws
  have hvot := validate_dataframe_invalid_votes_iff cfg ss hs ts ws
  have sner := validate_state_names_fst_false_iff ss
  have hbaseE : ∀ b : Bool, ((if b = true then (none : Option BaseReport)
      else some (validate_dataframe cfg
        { staat := some ss, harris := some hs, trump := some ts, wahlleute := some ws }).2) ≠ none ↔ b = false) := by
    intro b
    cases b <;> simp
  have hstatesE : ((if (validate_state_names ss).1 = true then (none : Option (List String))
      else some (validate_state_names ss).2) ≠ none ↔ ∃ s ∈ ss, ¬ s ∈ VALID_STATES) := by
    cases hsv : (validate_state_names ss).1
    · simp
      exact (by simpa using sner.mp hsv)
    · simp
      have hno : ¬ ∃ s ∈ ss, ¬ s ∈ VALID_STATES :=
        fun a => absurd (sner.mpr a) (by simp [hsv])
      simpa using hno
  cases ss with
  | nil =>
    refine ⟨_, _, rfl, hpct, hvot, ?_, ?_, ?_⟩
    · exact hbaseE _
    · simpa using hstatesE
    · simp
  | cons s0 ss2 =>
    refine ⟨_, _, rfl, hpct, hvot, ?_, ?_, ?_⟩
    · exact hbaseE _
    · simpa using hstatesE
    · cases hfm : ((s0 :: ss2).zip (hs.zip ts)).filterMap (fun p =>
          let c := validate_sum_to_hundred cfg p.2.1 p.2.2
          if c.1 then none else some (⟨p.1, c.2, p.2.1, p.2.2⟩ : SumErr)) with
      | nil =>
        have h1 : (((s0 :: ss2).zip (hs.zip ts)).filterMap (fun p =>
            let c := validate_sum_to_hundred cfg p.2.1 p.2.2
            if c.1 then none else some (⟨p.1, c.2, p.2.1, p.2.2⟩ : SumErr))).isEmpty = true := by
          simp [hfm]
        have h2 := sums_filterMap_isEmpty_false_iff cfg ((s0 :: ss2).zip (hs.zip ts))
        simp only [hfm]
        simp
        have hno : ¬ ∃ p ∈ (s0 :: ss2).zip (hs.zip ts),
            ¬(cfg.percentage_sum_min ≤ p.2.1 + p.2.2 ∧ p.2.1 + p.2.2 ≤ cfg.percentage_sum_max) :=
          fun a => absurd (h2.mpr a) (by simp [h1])
        simpa using hno
      | cons e es =>
        have h1 : (((s0 :: ss2).zip (hs.zip ts)).filterMap (fun p =>
            let c := validate_sum_to_hundred cfg p.2.1 p.2.2
            if c.1 then none else some (⟨p.1, c.2, p.2.1, p.2.2⟩ : SumErr))).isEmpty = false := by
          simp [hfm]
        have h2 := sums_filterMap_isEmpty_false_iff cfg ((s0 :: ss2).zip (hs.zip ts))
        simp only [hfm]
        simp
        exact by simpa using h2.mp h1

end Wahl.Validation

namespace Wahl.Processing

/-- Partitioning rows by the trichotomy of the Harris and Trump columns
preserves the electoral-vote sum. -/
theorem sum_filter_trichotomy (df : List PRow) :
    ((df.filter fun r => decide (r.trump < r.harris)).map PRow.wahlleute).sum +
    ((df.filter fun r => decide (r.harris < r.trump)).map PRow.wahlleute).sum +
    ((df.filter fun r => decide (r.harris = r.trump)).map PRow.wahlleute).sum
      = (df.map PRow.wahlleute).sum := by
  induction df with
  | nil => simp
  | cons a l ih =>
    rcases lt_trichotomy a.harris a.trump with h | h | h
    · have h1 : ¬ a.trump < a.harris := lt_asymm h
      have h2 : ¬ a.harris = a.trump := ne_of_lt h
      simp [h, h1, h2, List.filter_cons]
      omega
    · have h1 : ¬ a.trump < a.harris := by rw [h]; exact lt_irrefl _
      have h2 : ¬ a.harris < a.trump := by rw [h]; exact lt_irrefl _
      simp [h, h1, h2, List.filter_cons]
      omega
    · have h1 : ¬ a.harris < a.trump := lt_asymm h
      have h2 : ¬ a.harris = a.trump := ne_of_gt h
      simp [h, h1, h2, List.filter_cons]
      omega

/-- When the running sum can never reach the threshold, `firstReach`
finds nothing (the all-false `idxmax` case). -/
theorem firstReach_none (l : List PRow) (acc : ℤ)
    (hnn : ∀ r ∈ l, 0 ≤ r.wahlleute) (hacc : 0 ≤ acc)
    (hs : acc + (l.map PRow.wahlleute).sum < 270) :
    firstReach 270 acc l = none := by
  induction l generalizing acc with
  | nil => rfl
  | cons a t ih =>
    have ha : 0 ≤ a.wahlleute := hnn a (by simp)
    have htl : 0 ≤ (t.map PRow.wahlleute).sum := by
      apply List.sum_nonneg
      intro x hx
      rcases List.mem_map.mp hx with ⟨b, hb, rfl⟩
      exact hnn b (by simp [hb])
    simp only [List.map_cons, List.sum_cons] at hs
    unfold firstReach
    rw [if_neg (by omega)]
    exact ih (acc + a.wahlleute) (fun r hr => hnn r (by simp [hr])) (by omega) (by omega)

/-- The rounded probability pair: bounds, and the fixed-point property
of the second rounding. -/
theorem roundTo_prob_pair (d : ℕ) {y : ℚ} (h0 : 0 ≤ y) (h1 : y ≤ 100) :
    0 ≤ roundTo d y ∧ roundTo d y ≤ 100 ∧ roundTo d (100 - roundTo d y) = 100 - roundTo d y := by
  obtain ⟨hl, hh⟩ := Wahl.roundTo_mem_Icc d h0 h1
  refine ⟨hl, hh, ?_⟩
  obtain ⟨k, hk⟩ := Wahl.roundTo_exists_int d y
  have hp : ((10 : ℚ) ^ d) ≠ 0 := by positivity
  have e : 100 - roundTo d y = ((100 * 10 ^ d - k : ℤ) : ℚ) / 10 ^ d := by
    rw [hk]
    push_cast
    field_simp
  rw [e, Wahl.roundTo_int_div]

/-- Range and complement properties of the rounded probability pair, at
a cdf value `v` between 0 and 1. -/
theorem roundTo_prob_conj (d : ℕ) (v : ℚ) (h0 : 0 ≤ v) (h1 : v ≤ 1) :
    0 ≤ roundTo d (v * 100) ∧ roundTo d (v * 100) ≤ 100 ∧
    0 ≤ roundTo d (100 - roundTo d (v * 100)) ∧
    roundTo d (100 - roundTo d (v * 100)) ≤ 100 ∧
    roundTo d (v * 100) + roundTo d (100 - roundTo d (v * 100)) = 100 ∧
    |roundTo d (v * 100) + roundTo d (100 - roundTo d (v * 100)) - 100| ≤ 1 / 100 := by
  have hy0 : 0 ≤ v * 100 := by nlinarith
  have hy1 : v * 100 ≤ 100 := by nlinarith
  obtain ⟨hl, hh, htc⟩ := roundTo_prob_pair d hy0 hy1
  rw [htc]
  refine ⟨hl, hh, by linarith, by linarith, by ring, ?_⟩
  rw [show roundTo d (v * 100) + (100 - roundTo d (v * 100)) - 100 = 0 by ring]
  norm_num

/-- The embedded sort produces a table ascending in the lead column. -/
theorem sortByFuehrung_sorted (df : List PRow) :
    (sortByFuehrung df).Pairwise fun a b => a.fuehrung.getD 0 ≤ b.fuehrung.getD 0 := by
  have h := @List.sorted_mergeSort PRow
    (fun a b => decide (a.fuehrung.getD 0 ≤ b.fuehrung.getD 0))
    (fun a b c hab hbc =>
      decide_eq_true (le_trans (of_decide_eq_true hab) (of_decide_eq_true hbc)))
    (fun a b => by
      rcases le_total (a.fuehrung.getD 0) (b.fuehrung.getD 0) with h | h <;> simp [h])
    df
  exact h.imp fun hab => of_decide_eq_true hab

/-- C7: on every table on which they succeed, `calculate_leads` and
`calculate_percentages` are idempotent — applying either to its own
output returns that output unchanged. -/
theorem leads_percentages_idempotent (cfg : ProcessingConfig) (df df2 out out2 : List PRow) :
    (calculate_leads cfg df = .ok out → calculate_leads cfg out = .ok out) ∧
    (calculate_percentages cfg df2 = .ok out2 → calculate_percentages cfg out2 = .ok out2) := by
  constructor
  · intro h
    unfold calculate_leads at h ⊢
    by_cases he : df.isEmpty = true
    · simp [he] at h
    · simp only [if_neg he, Except.ok.injEq] at h
      subst h
      have hemp : (df.map fun r =>
          { r with fuehrung := some (roundTo cfg.rounding_decimals (r.harris - r.trump)) }).isEmpty = false := by
        cases df with
        | nil => simp at he
        | cons a l => simp
      rw [if_neg (by rw [hemp]; simp)]
      rw [List.map_map]
      rfl
  · intro h
    unfold calculate_percentages at h ⊢
    by_cases he : df2.isEmpty = true
    · simp [he] at h
    · by_cases ht : ((df2.map PRow.wahlleute).sum) = 0
      · simp [he, ht] at h
      · simp only [if_neg he, if_neg ht, Except.ok.injEq] at h
        subst h
        have hw : ((df2.map fun r =>
            { r with
              harris_anteil := some (roundTo cfg.rounding_decimals
                ((r.wahlleute : ℚ) * (r.harris / 100) / (((df2.map PRow.wahlleute).sum : ℤ) : ℚ) * 100)),
              trump_anteil := some (roundTo cfg.rounding_decimals
                ((r.wahlleute : ℚ) * (r.trump / 100) / (((df2.map PRow.wahlleute).sum : ℤ) : ℚ) * 100)) }).map PRow.wahlleute).sum
            = (df2.map PRow.wahlleute).sum := by
          rw [List.map_map]
          rfl
        have hemp : (df2.map fun r =>
            { r with
              harris_anteil := some (roundTo cfg.rounding_decimals
                ((r.wahlleute : ℚ) * (r.harris / 100) / (((df2.map PRow.wahlleute).sum : ℤ) : ℚ) * 100)),
              trump_anteil := some (roundTo cfg.rounding_decimals
                ((r.wahlleute : ℚ) * (r.trump / 100) / (((df2.map PRow.wahlleute).sum : ℤ) : ℚ) * 100)) }).isEmpty = false := by
          cases df2 with
          | nil => simp at he
          | cons a l => simp
        rw [if_neg (by rw [hemp]; simp)]
        rw [if_neg (by rw [hw]; exact ht)]
        rw [hw, List.map_map]
        rfl

/-- C7 witness: both idempotence implications evaluated on a concrete
one-row table. -/
theorem leads_percentages_idempotent_witness :
    calculate_leads {} [⟨"Texas", 47, 45, 40, some 2, none, none, none, none, none⟩]
      = .ok [⟨"Texas", 47, 45, 40, some 2, none, none, none, none, none⟩] ∧
    calculate_percentages {} [⟨"Texas", 47, 45, 40, none, some 47, some 45, none, none, none⟩]
      = .ok [⟨"Texas", 47, 45, 40, none, some 47, some 45, none, none, none⟩] := by
  have h1 : calculate_leads ({} : ProcessingConfig)
      [⟨"Texas", 47, 45, 40, none, none, none, none, none, none⟩]
      = .ok [⟨"Texas", 47, 45, 40, some 2, none, none, none, none, none⟩] := by
    simp only [calculate_leads]
    norm_num
    rw [show (2 : ℚ) = ((2 : ℤ) : ℚ) by norm_num, Wahl.roundTo_intCast]
  have h2 : calculate_percentages ({} : ProcessingConfig)
      [⟨"Texas", 47, 45, 40, none, none, none, none, none, none⟩]
      = .ok [⟨"Texas", 47, 45, 40, none, some 47, some 45, none, none, none⟩] := by
    simp only [calculate_percentages]
    norm_num
    constructor
    · rw [show (47 : ℚ) = ((47 : ℤ) : ℚ) by norm_num, Wahl.roundTo_intCast]
    · rw [show (45 : ℚ) = ((45 : ℤ) : ℚ) by norm_num, Wahl.roundTo_intCast]
  exact ⟨(leads_percentages_idempotent {}
      [⟨"Texas", 47, 45, 40, none, none, none, none, none, none⟩] [] _ []).1 h1,
    (leads_percentages_idempotent {} []
      [⟨"Texas", 47, 45, 40, none, none, none, none, none, none⟩] [] _).2 h2⟩

/-- C9: every row produced by `calculate_leads` has
`lead = round(harris - trump, d)`, which equals `harris - trump`
exactly whenever both inputs have at most two decimal places and the
configured rounding is two decimals; and every row of the enriched
table has `margin = |harris - trump|` exactly. -/
theorem leads_margin_exact (cfg : ProcessingConfig) (df out : List PRow)
    (h : calculate_leads cfg df = .ok out) :
    (∀ r ∈ out, r.fuehrung = some (roundTo cfg.rounding_decimals (r.harris - r.trump)) ∧
      ((∃ n : ℤ, r.harris = (n : ℚ) / 100) → (∃ m : ℤ, r.trump = (m : ℚ) / 100) →
        cfg.rounding_decimals = 2 → r.fuehrung = some (r.harris - r.trump))) ∧
    (∀ edf : List Wahl.ElectionProc.ERow, ∀ s ∈ Wahl.ElectionProc.enrich_data edf,
      s.margin = some |s.harris - s.trump|) := by
  constructor
  · unfold calculate_leads at h
    by_cases he : df.isEmpty = true
    · simp [he] at h
    · simp only [if_neg he, Except.ok.injEq] at h
      subst h
      intro r hr
      rcases List.mem_map.mp hr with ⟨b, hb, rfl⟩
      refine ⟨rfl, ?_⟩
      rintro ⟨n, hn⟩ ⟨m, hm⟩ hd
      have hn2 : b.harris = (n : ℚ) / 100 := hn
      have hm2 : b.trump = (m : ℚ) / 100 := hm
      show some (roundTo cfg.rounding_decimals (b.harris - b.trump)) = some (b.harris - b.trump)
      rw [hd]
      have e : b.harris - b.trump = ((n - m : ℤ) : ℚ) / 10 ^ 2 := by
        rw [hn2, hm2]
        push_cast
        ring
      rw [e, Wahl.roundTo_int_div]
  · intro edf s hs
    have hs2 := List.mem_mergeSort.mp hs
    rcases List.mem_map.mp hs2 with ⟨b, hb, rfl⟩
    rfl

/-- C9 witness: the lead and margin equations evaluated on concrete
one-row tables. -/
theorem leads_margin_exact_witness :
    (⟨"Arizona", 46.8, 48.2, 11, some ((46.8 : ℚ) - 48.2), none, none, none, none,
        none⟩ : PRow).fuehrung = some ((46.8 : ℚ) - 48.2) ∧
    (⟨"Georgia", 30, 10, some 40, some 75, some 25, some "Harris",
        some 20⟩ : Wahl.ElectionProc.ERow).margin = some |(30 : ℤ) - 10| := by
  have hlead : calculate_leads ({} : ProcessingConfig)
      [⟨"Arizona", 46.8, 48.2, 11, none, none, none, none, none, none⟩]
      = .ok [⟨"Arizona", 46.8, 48.2, 11, some ((46.8 : ℚ) - 48.2), none, none, none, none, none⟩] := by
    simp only [calculate_leads]
    norm_num
    rw [show -((7 : ℚ) / 5) = ((-140 : ℤ) : ℚ) / 10 ^ 2 by norm_num, Wahl.roundTo_int_div]
  have henr : Wahl.ElectionProc.enrich_data [⟨"Georgia", 30, 10, none, none, none, none, none⟩]
      = [⟨"Georgia", 30, 10, some 40, some 75, some 25, some "Harris", some 20⟩] := by
    simp only [Wahl.ElectionProc.enrich_data, Wahl.mergeSort_one]
    norm_num
    constructor
    · rw [show (75 : ℚ) = ((75 : ℤ) : ℚ) by norm_num, Wahl.roundTo_intCast]
    · rw [show (25 : ℚ) = ((25 : ℤ) : ℚ) by norm_num, Wahl.roundTo_intCast]
  have H := leads_margin_exact {}
    [⟨"Arizona", 46.8, 48.2, 11, none, none, none, none, none, none⟩]
    [⟨"Arizona", 46.8, 48.2, 11, some ((46.8 : ℚ) - 48.2), none, none, none, none, none⟩] hlead
  refine ⟨?_, ?_⟩
  · exact (H.1 _ (by simp)).2 ⟨4680, by norm_num⟩ ⟨4820, by norm_num⟩ rfl
  · exact H.2 [⟨"Georgia", 30, 10, none, none, none, none, none⟩]
      ⟨"Georgia", 30, 10, some 40, some 75, some 25, some "Harris", some 20⟩
      (by rw [henr]; simp)

/-- C8: the electoral-vote sums of the three base-case partitions of
`analyze_electoral_scenarios` (Harris strictly ahead, Trump strictly
ahead, tied) always add up to the sum over the whole table. -/
theorem scenario_partition_sum (cfg : ProcessingConfig) (df : List PRow) (scen : ScenReport)
    (h : analyze_electoral_scenarios cfg df = .ok scen) :
    scen.basis.wahlleute.harris + scen.basis.wahlleute.trump + scen.basis.wahlleute.unentschieden
      = (df.map PRow.wahlleute).sum := by
  unfold analyze_electoral_scenarios at h
  by_cases hall : (df.all fun r => r.fuehrung.isSome) = true
  · rw [if_pos hall] at h
    cases hsort : sortByFuehrung df with
    | nil =>
      rw [hsort] at h
      exact absurd h (by simp)
    | cons r0 rest =>
      rw [hsort] at h
      simp only [Except.ok.injEq] at h
      subst h
      exact sum_filter_trichotomy df
  · rw [if_neg hall] at h
    exact absurd h (by simp)

/-- C8 witness: the partition identity evaluated on a concrete one-row
table on which the analysis succeeds. -/
theorem scenario_partition_sum_witness :
    ((⟨⟨⟨40, 0, 0⟩, 2000/269, 0⟩, ⟨0, 0, [], 0⟩, ⟨"Texas", some 2, 40⟩⟩ : ScenReport).basis.wahlleute.harris +
      (⟨⟨⟨40, 0, 0⟩, 2000/269, 0⟩, ⟨0, 0, [], 0⟩, ⟨"Texas", some 2, 40⟩⟩ : ScenReport).basis.wahlleute.trump +
      (⟨⟨⟨40, 0, 0⟩, 2000/269, 0⟩, ⟨0, 0, [], 0⟩, ⟨"Texas", some 2, 40⟩⟩ : ScenReport).basis.wahlleute.unentschieden)
      = (([⟨"Texas", 47, 45, 40, some 2, none, none, none, none, none⟩] : List PRow).map PRow.wahlleute).sum := by
  have hana : analyze_electoral_scenarios {}
      [⟨"Texas", 47, 45, 40, some 2, none, none, none, none, none⟩]
      = .ok ⟨⟨⟨40, 0, 0⟩, 2000/269, 0⟩, ⟨0, 0, [], 0⟩, ⟨"Texas", some 2, 40⟩⟩ := by
    simp only [analyze_electoral_scenarios, sortByFuehrung, Wahl.mergeSort_one, firstReach,
      listMean]
    norm_num
  exact scenario_partition_sum {} _ _ hana

/-- C10 counterexample: the empty table has electoral-vote sum below
270, yet `analyze_electoral_scenarios` fails on it (`idxmax` raises on
an empty series, re-raised as `CalculationError`), instead of
reporting a tipping point. -/
theorem scenarios_empty_table_cex :
    ((([] : List PRow).map PRow.wahlleute).sum < 270) ∧
    analyze_electoral_scenarios {} ([] : List PRow)
      = .error (.calculationError "Fehler bei Szenarioanalyse: attempt to get argmax of an empty sequence") := by
  refine ⟨by simp, ?_⟩
  simp [analyze_electoral_scenarios, sortByFuehrung]

/-- C10 (amended): on every nonempty table with the lead column
present, nonnegative electoral votes and a total below 270, the
analysis succeeds and reports the first row of the ascending-by-lead
order as the tipping point. -/
theorem scenarios_under_270_first_row (cfg : ProcessingConfig) (df : List PRow)
    (hne : df ≠ [])
    (hlead : ∀ r ∈ df, r.fuehrung.isSome)
    (hnn : ∀ r ∈ df, 0 ≤ r.wahlleute)
    (hsum : (df.map PRow.wahlleute).sum < 270) :
    ∃ scen r0 rest, sortByFuehrung df = r0 :: rest ∧
      analyze_electoral_scenarios cfg df = .ok scen ∧
      scen.tipping = ⟨r0.staat, r0.fuehrung, r0.wahlleute⟩ := by
  have hall : (df.all fun r => r.fuehrung.isSome) = true := by
    rw [List.all_eq_true]
    exact hlead
  have hperm : (sortByFuehrung df).Perm df :=
    List.mergeSort_perm df (fun a b => decide (a.fuehrung.getD 0 ≤ b.fuehrung.getD 0))
  cases hsort : sortByFuehrung df with
  | nil =>
    exfalso
    rw [hsort] at hperm
    exact hne (hperm.nil_eq).symm
  | cons r0 rest =>
    rw [hsort] at hperm
    have hsum2 : ((r0 :: rest).map PRow.wahlleute).sum = (df.map PRow.wahlleute).sum :=
      (hperm.map PRow.wahlleute).sum_eq
    have hfr : firstReach 270 0 (r0 :: rest) = none := by
      apply firstReach_none
      · intro r hr
        exact hnn r (hperm.mem_iff.mp hr)
      · exact le_refl 0
      · omega
    have heq : ∃ scen, analyze_electoral_scenarios cfg df = .ok scen ∧
        scen.tipping = ⟨r0.staat, r0.fuehrung, r0.wahlleute⟩ := by
      simp only [analyze_electoral_scenarios, hall, if_true, hsort, hfr, Option.getD_none]
      exact ⟨_, rfl, rfl⟩
    rcases heq with ⟨scen, h1, h2⟩
    exact ⟨scen, r0, rest, rfl, h1, h2⟩

/-- C10 witness: the below-270 tipping point evaluated on a concrete
one-row table. -/
theorem scenarios_under_270_first_row_witness :
    ∃ scen r0 rest,
      sortByFuehrung [⟨"Ohio", 48, 47, 20, some 1, none, none, none, none, none⟩] = r0 :: rest ∧
      analyze_electoral_scenarios {}
        [⟨"Ohio", 48, 47, 20, some 1, none, none, none, none, none⟩] = .ok scen ∧
      scen.tipping = ⟨r0.staat, r0.fuehrung, r0.wahlleute⟩ :=
  scenarios_under_270_first_row {} _ (by simp) (by simp) (by norm_num) (by norm_num)

/-- C5: for every row produced by `calculate_winning_probability` —
with `norm.cdf` modelled as any function into `[0, 1]` that maps 0 to
1/2 — a zero lead gives both probabilities exactly 50, both
probabilities lie in `[0, 100]`, and they sum to 100, in particular
within the 0.01 tolerance. -/
theorem winning_probability_props (normCdf : ℚ → ℚ) (cfg : ProcessingConfig)
    (moe : Option ℚ) (df out : List PRow) (summ : ProbSummary)
    (hrange : ∀ x, 0 ≤ normCdf x ∧ normCdf x ≤ 1)
    (hzero : normCdf 0 = 1 / 2)
    (h : calculate_winning_probability normCdf cfg moe df = .ok (out, summ)) :
    ∀ r ∈ out, ∃ hc tc,
      r.harris_gewinnchance = some hc ∧ r.trump_gewinnchance = some tc ∧
      (r.fuehrung = some 0 → hc = 50 ∧ tc = 50) ∧
      0 ≤ hc ∧ hc ≤ 100 ∧ 0 ≤ tc ∧ tc ≤ 100 ∧
      hc + tc = 100 ∧ |hc + tc - 100| ≤ 1 / 100 := by
  unfold calculate_winning_probability at h
  cases hL : calculate_leads cfg df with
  | error e =>
    rw [hL] at h
    exact absurd h (by simp)
  | ok base =>
    rw [hL] at h
    simp only [Except.ok.injEq, Prod.mk.injEq] at h
    obtain ⟨hrows, hsumm⟩ := h
    intro r hr
    rw [← hrows] at hr
    rcases List.mem_map.mp hr with ⟨b, hb, rfl⟩
    refine ⟨_, _, rfl, rfl, ?_, ?_⟩
    · intro hf
      have hf2 : b.fuehrung = some 0 := hf
      rw [hf2]
      simp only [Option.getD_some, zero_div, hzero]
      have e50 : (1 : ℚ) / 2 * 100 = ((50 : ℤ) : ℚ) := by norm_num
      rw [e50, Wahl.roundTo_intCast]
      constructor
      · norm_num
      · have e2 : (100 : ℚ) - ((50 : ℤ) : ℚ) = ((50 : ℤ) : ℚ) := by norm_num
        rw [e2, Wahl.roundTo_intCast]
        norm_num
    · exact roundTo_prob_conj cfg.rounding_decimals _ (hrange _).1 (hrange _).2

/-- C5 witness: the probability properties evaluated on a concrete
one-row table with a constant-1/2 cdf. -/
theorem winning_probability_props_witness :
    ∃ hc tc,
      (⟨"Texas", 47, 45, 40, some 2, none, none, some (49/25), some 50,
          some 50⟩ : PRow).harris_gewinnchance = some hc ∧
      (⟨"Texas", 47, 45, 40, some 2, none, none, some (49/25), some 50,
          some 50⟩ : PRow).trump_gewinnchance = some tc ∧
      ((⟨"Texas", 47, 45, 40, some 2, none, none, some (49/25), some 50,
          some 50⟩ : PRow).fuehrung = some 0 → hc = 50 ∧ tc = 50) ∧
      0 ≤ hc ∧ hc ≤ 100 ∧ 0 ≤ tc ∧ tc ≤ 100 ∧
      hc + tc = 100 ∧ |hc + tc - 100| ≤ 1 / 100 := by
  have hL : calculate_leads ({} : ProcessingConfig)
      [⟨"Texas", 47, 45, 40, none, none, none, none, none, none⟩]
      = .ok [⟨"Texas", 47, 45, 40, some 2, none, none, none, none, none⟩] := by
    simp only [calculate_leads]
    norm_num
    rw [show (2 : ℚ) = ((2 : ℤ) : ℚ) by norm_num, Wahl.roundTo_intCast]
  have h : calculate_winning_probability (fun _ => 1/2) {} none
      [⟨"Texas", 47, 45, 40, none, none, none, none, none, none⟩]
      = .ok ([⟨"Texas", 47, 45, 40, some 2, none, none, some (49/25), some 50, some 50⟩],
        ⟨50, 50, 2, 2⟩) := by
    simp only [calculate_winning_probability, hL]
    norm_num [listMean, listMedian, Wahl.mergeSort_one]
    rw [show (50 : ℚ) = ((50 : ℤ) : ℚ) by norm_num, Wahl.roundTo_intCast]
    norm_num
    rw [show (50 : ℚ) = ((50 : ℤ) : ℚ) by norm_num, Wahl.roundTo_intCast]
  exact winning_probability_props (fun _ => 1/2) {} none _ _ _
    (fun x => by norm_num) (by norm_num) h
    (⟨"Texas", 47, 45, 40, some 2, none, none, some (49/25), some 50, some 50⟩ : PRow)
    (by simp)

end Wahl.Processing

namespace Wahl.ElectionProc

/-- C2 counterexample: on a tied row (`Harris = Trump = 40`) the
enriched table records Trump, not Harris, as the leading candidate. -/
theorem enrich_tie_leading_cex :
    (enrich_data [⟨"Georgia", 40, 40, none, none, none, none, none⟩]).map ERow.leading
      = [some "Trump"] ∧ ("Trump" : String) ≠ "Harris" := by
  refine ⟨?_, by decide⟩
  simp [enrich_data, Wahl.mergeSort_one]

/-- C2 (amended): every row of the enriched table has a leading
candidate that is either Harris or Trump, and on a tie the recorded
leader is Trump (Harris must be strictly ahead to lead). -/
theorem enrich_leading_membership (df : List ERow) (r : ERow) (hr : r ∈ enrich_data df) :
    (r.leading = some "Harris" ∨ r.leading = some "Trump") ∧
    (r.harris = r.trump → r.leading = some "Trump") := by
  have hr2 := List.mem_mergeSort.mp hr
  rcases List.mem_map.mp hr2 with ⟨b, hb, rfl⟩
  constructor
  · by_cases h : b.trump < b.harris
    · left
      show some (if b.trump < b.harris then "Harris" else "Trump") = some "Harris"
      rw [if_pos h]
    · right
      show some (if b.trump < b.harris then "Harris" else "Trump") = some "Trump"
      rw [if_neg h]
  · intro he
    have he2 : b.harris = b.trump := he
    show some (if b.trump < b.harris then "Harris" else "Trump") = some "Trump"
    rw [if_neg (by rw [he2]; exact lt_irrefl _)]

/-- C2 witness: the leading-candidate properties evaluated on a
concrete one-row tied table. -/
theorem enrich_leading_membership_witness :
    ((⟨"Ohio", 40, 40, some 80, some 50, some 50, some "Trump", some 0⟩ : ERow).leading
        = some "Harris" ∨
      (⟨"Ohio", 40, 40, some 80, some 50, some 50, some "Trump", some 0⟩ : ERow).leading
        = some "Trump") ∧
    ((⟨"Ohio", 40, 40, some 80, some 50, some 50, some "Trump", some 0⟩ : ERow).harris
        = (⟨"Ohio", 40, 40, some 80, some 50, some 50, some "Trump", some 0⟩ : ERow).trump →
      (⟨"Ohio", 40, 40, some 80, some 50, some 50, some "Trump", some 0⟩ : ERow).leading
        = some "Trump") := by
  have henr : enrich_data [⟨"Ohio", 40, 40, none, none, none, none, none⟩]
      = [⟨"Ohio", 40, 40, some 80, some 50, some 50, some "Trump", some 0⟩] := by
    simp only [enrich_data, Wahl.mergeSort_one]
    norm_num
    rw [show (50 : ℚ) = ((50 : ℤ) : ℚ) by norm_num, Wahl.roundTo_intCast]
  exact enrich_leading_membership [⟨"Ohio", 40, 40, none, none, none, none, none⟩]
    ⟨"Ohio", 40, 40, some 80, some 50, some 50, some "Trump", some 0⟩
    (by rw [henr]; simp)

end Wahl.ElectionProc
